import Mathlib

/-!
Shallow embedding of `src/parser.cpp` (repository Premiiitn/RecursiveDescentParser):
a lexer, a recursive-descent parser and a tree-walking evaluator for a small
expression/assignment language.  The embedding follows the C++ source function by
function; machine `int` values are modelled as unbounded `Int` except where the
source's behaviour depends on the `int` range (`std::stoi`), which is modelled
explicitly with the bound 2147483647.  Exceptions (`std::runtime_error`,
`std::out_of_range`) are modelled with `Except Fault`; the process-wide static
variable map of `VariableNode` is modelled by threading a `VarMap` value through
evaluation and across executions.
-/

set_option maxHeartbeats 1000000

/-- The `'\0'` sentinel returned by `Lexer::current()` past the end of the input. -/
def nullChar : Char := Char.ofNat 0

/-- C `isspace` (C locale): space, \t, \n, \v, \f, \r (codes 32 and 9..13). -/
def isspaceC (c : Char) : Bool := c.toNat = 32 || (9 ≤ c.toNat && c.toNat ≤ 13)

/-- C `isdigit`: '0'..'9' (codes 48..57). -/
def isdigitC (c : Char) : Bool := 48 ≤ c.toNat && c.toNat ≤ 57

/-- C `isalpha` (C locale): 'A'..'Z' (65..90) or 'a'..'z' (97..122). -/
def isalphaC (c : Char) : Bool :=
  (65 ≤ c.toNat && c.toNat ≤ 90) || (97 ≤ c.toNat && c.toNat ≤ 122)

/-- C `isalnum`: letter or digit. -/
def isalnumC (c : Char) : Bool := isalphaC c || isdigitC c

/-- The guard of the loop in `Lexer::identifier`: `isalnum(current()) || current() == '_'`. -/
def isIdentChar (c : Char) : Bool := isalnumC c || c = '_'

/-- `enum class TokenType` from the source. -/
inductive TokenType
  | NUMBER
  | IDENTIFIER
  | PLUS
  | MINUS
  | MULTIPLY
  | DIVIDE
  | ASSIGN
  | IF
  | THEN
  | ELSE
  | ENDIF
  | LPAREN
  | RPAREN
  | END
  deriving DecidableEq, Repr

/-- `struct Token` from the source. -/
structure Token where
  type : TokenType
  value : String
  line : Nat
  column : Nat
  deriving DecidableEq, Repr

/-- The faults the source can raise (each `throw std::runtime_error` site, plus the
`std::out_of_range` thrown by `std::stoi` in `Parser::factor`, plus `outOfFuel`,
which models exhaustion of the host call stack for the recursive descent). -/
inductive Fault
  | undefinedVariable (name : String)
  | divisionByZero
  | invalidOperator
  | invalidCharacter (c : Char)
  | unexpectedToken (value : String)
  | invalidFactor
  | outOfRange
  | invalidArgument
  | outOfFuel
  deriving DecidableEq, Repr

/-- The mutable fields of class `Lexer`: `input`, `position`, `line`, `column`. -/
structure LexState where
  input : List Char
  pos : Nat
  line : Nat
  column : Nat
  deriving DecidableEq, Repr

/-- The `Lexer` constructor: position 0, line 1, column 1. -/
def LexState.init (s : String) : LexState := ⟨s.toList, 0, 1, 1⟩

/-- `Lexer::current()`: the character at the scan position, `'\0'` past the end. -/
def currentChar (st : LexState) : Char := st.input.getD st.pos nullChar

/-- `Lexer::advance()`: step one character, maintaining line/column counters. -/
def advance (st : LexState) : LexState :=
  if currentChar st = '\n' then
    { st with pos := st.pos + 1, line := st.line + 1, column := 1 }
  else
    { st with pos := st.pos + 1, column := st.column + 1 }

/-- The loop of `Lexer::skipWhitespace`, with an explicit iteration budget.
The budget `st.input.length - st.pos` used by `skipWhitespace` always suffices,
because each iteration requires a whitespace character at the scan position
(so the position is inside the input) and advances the position by one. -/
def skipWhitespaceAux : Nat → LexState → LexState
  | 0, st => st
  | f + 1, st =>
    if isspaceC (currentChar st) then skipWhitespaceAux f (advance st) else st

/-- `Lexer::skipWhitespace`. -/
def skipWhitespace (st : LexState) : LexState :=
  skipWhitespaceAux (st.input.length - st.pos) st

/-- The loop of `Lexer::number` (`while (isdigit(current())) result += current(); advance();`),
with the same always-sufficient iteration budget scheme as `skipWhitespaceAux`. -/
def numberLoopAux : Nat → LexState → List Char → LexState × List Char
  | 0, st, acc => (st, acc)
  | f + 1, st, acc =>
    if isdigitC (currentChar st) then
      numberLoopAux f (advance st) (acc ++ [currentChar st])
    else (st, acc)

/-- `Lexer::number`: a maximal digit run becomes a NUMBER token whose text is the run
(the token records the post-run line/column, as in the source). -/
def numberTok (st : LexState) : Token × LexState :=
  let p := numberLoopAux (st.input.length - st.pos) st []
  (⟨.NUMBER, String.mk p.2, p.1.line, p.1.column⟩, p.1)

/-- The loop of `Lexer::identifier` (`while (isalnum(current()) || current() == '_')`). -/
def identLoopAux : Nat → LexState → List Char → LexState × List Char
  | 0, st, acc => (st, acc)
  | f + 1, st, acc =>
    if isIdentChar (currentChar st) then
      identLoopAux f (advance st) (acc ++ [currentChar st])
    else (st, acc)

/-- `Lexer::identifier`: a maximal run of letters/digits/underscores; reserved words
`if`, `then`, `else`, `endif` get their keyword token type, anything else IDENTIFIER. -/
def identifierTok (st : LexState) : Token × LexState :=
  let p := identLoopAux (st.input.length - st.pos) st []
  let s := String.mk p.2
  if s = "if" then (⟨.IF, s, p.1.line, p.1.column⟩, p.1)
  else if s = "then" then (⟨.THEN, s, p.1.line, p.1.column⟩, p.1)
  else if s = "else" then (⟨.ELSE, s, p.1.line, p.1.column⟩, p.1)
  else if s = "endif" then (⟨.ENDIF, s, p.1.line, p.1.column⟩, p.1)
  else (⟨.IDENTIFIER, s, p.1.line, p.1.column⟩, p.1)

/-- `Lexer::nextToken`.  The C++ `switch` on the punctuation character is written as
an if-chain (only `+ - * / = ( )` are recognized; note the source gives the
MULTIPLY token an empty text).  Anything else raises `Invalid character`. -/
def nextToken (st0 : LexState) : Except Fault (Token × LexState) :=
  let st := skipWhitespace st0
  if st.input.length ≤ st.pos then
    .ok (⟨.END, "", st.line, st.column⟩, st)
  else
    let c := currentChar st
    if isdigitC c then .ok (numberTok st)
    else if isalphaC c then .ok (identifierTok st)
    else
      let st1 := advance st
      if c = '+' then .ok (⟨.PLUS, "+", st1.line, st1.column⟩, st1)
      else if c = '-' then .ok (⟨.MINUS, "-", st1.line, st1.column⟩, st1)
      else if c = '*' then .ok (⟨.MULTIPLY, "", st1.line, st1.column⟩, st1)
      else if c = '/' then .ok (⟨.DIVIDE, "/", st1.line, st1.column⟩, st1)
      else if c = '=' then .ok (⟨.ASSIGN, "=", st1.line, st1.column⟩, st1)
      else if c = '(' then .ok (⟨.LPAREN, "(", st1.line, st1.column⟩, st1)
      else if c = ')' then .ok (⟨.RPAREN, ")", st1.line, st1.column⟩, st1)
      else .error (.invalidCharacter c)

/-- Collect the token stream that successive `nextToken` calls yield, up to (and
excluding) the END token.  The budget `s.length + 1` used by `runTokenize` always
suffices: every non-END token consumes at least one character. -/
def tokenizeAux : Nat → LexState → Except Fault (List Token)
  | 0, _ => .error .outOfFuel
  | f + 1, st => do
    let r ← nextToken st
    if r.1.type = .END then .ok []
    else do
      let ts ← tokenizeAux f r.2
      .ok (r.1 :: ts)

/-- The token stream of a source string (END token excluded). -/
def runTokenize (s : String) : Except Fault (List Token) :=
  tokenizeAux (s.length + 1) (LexState.init s)

/-- The AST node variants of the source: `NumberNode`, `VariableNode`,
`BinaryOpNode` (operator stored as a `TokenType`), `AssignmentNode`, `IfNode`
(with its possibly-null else branch). -/
inductive AST
  | number (value : Int)
  | var (name : String)
  | binOp (left : AST) (op : TokenType) (right : AST)
  | assign (name : String) (value : AST)
  | ifNode (condition thenBranch : AST) (elseBranch : Option AST)
  deriving Repr

/-- The process-wide static map `VariableNode::variables`. -/
def VarMap : Type := List (String × Int)

instance : DecidableEq VarMap := by
  unfold VarMap
  infer_instance

/-- `variables.find(name)` on the static map. -/
def lookupVar : VarMap → String → Option Int
  | [], _ => none
  | (k, v) :: rest, n => if k = n then some v else lookupVar rest n

/-- `VariableNode::setVariable`: `variables[name] = value` (overwrite or insert). -/
def setVariable : VarMap → String → Int → VarMap
  | [], n, v => [(n, v)]
  | (k, w) :: rest, n, v =>
    if k = n then (k, v) :: rest else (k, w) :: setVariable rest n v

/-- The `evaluate` methods of the AST node classes.  The static variable map is
threaded explicitly; a thrown exception is modelled as `.error` paired with the
map contents at the throw point (C++ exceptions do not roll back mutations).
`BinaryOpNode::evaluate` evaluates left before right, then applies the operator;
division is C++ `int` division (truncation toward zero, `Int.div`), with a
`Division by zero` fault on a zero right operand. -/
def evaluate : AST → VarMap → Except Fault Int × VarMap
  | .number v, env => (.ok v, env)
  | .var n, env =>
    match lookupVar env n with
    | none => (.error (.undefinedVariable n), env)
    | some v => (.ok v, env)
  | .binOp l op r, env =>
    match evaluate l env with
    | (.error e, env1) => (.error e, env1)
    | (.ok leftVal, env1) =>
      match evaluate r env1 with
      | (.error e, env2) => (.error e, env2)
      | (.ok rightVal, env2) =>
        match op with
        | .PLUS => (.ok (leftVal + rightVal), env2)
        | .MINUS => (.ok (leftVal - rightVal), env2)
        | .MULTIPLY => (.ok (leftVal * rightVal), env2)
        | .DIVIDE =>
          if rightVal = 0 then (.error .divisionByZero, env2)
          else (.ok (Int.tdiv leftVal rightVal), env2)
        | _ => (.error .invalidOperator, env2)
  | .assign n v, env =>
    match evaluate v env with
    | (.error e, env1) => (.error e, env1)
    | (.ok val, env1) => (.ok val, setVariable env1 n val)
  | .ifNode c t (some e), env =>
    match evaluate c env with
    | (.error er, env1) => (.error er, env1)
    | (.ok cv, env1) => if cv ≠ 0 then evaluate t env1 else evaluate e env1
  | .ifNode c t none, env =>
    match evaluate c env with
    | (.error er, env1) => (.error er, env1)
    | (.ok cv, env1) => if cv ≠ 0 then evaluate t env1 else (.ok 0, env1)

/-- The value of a (nonempty, all-digit) decimal digit run. -/
def digitsToNat (l : List Char) : Nat :=
  l.foldl (fun a c => 10 * a + (c.toNat - 48)) 0

/-- `std::stoi` as `Parser::factor` applies it to the text of a NUMBER token.
NUMBER tokens from the lexer always carry a nonempty digit run, so conversion
computes that run's value; a value beyond `INT_MAX = 2147483647` throws
`std::out_of_range` (modelled `outOfRange`).  A text that is not a nonempty
digit run would throw `std::invalid_argument` (modelled `invalidArgument`);
this branch is unreachable from the lexer's NUMBER tokens. -/
def stoi (s : String) : Except Fault Int :=
  if s.toList ≠ [] ∧ s.toList.all isdigitC then
    if digitsToNat s.toList ≤ 2147483647 then .ok (Int.ofNat (digitsToNat s.toList))
    else .error .outOfRange
  else .error .invalidArgument

/-- The token the parser sees past the collected stream: the lexer keeps
returning END once the input is exhausted. -/
def endTok : Token := ⟨.END, "", 0, 0⟩

/-- The parser's `currentToken` for a remaining token stream. -/
def curTok (ts : List Token) : Token := ts.headD endTok

/-- `Parser::eat`: consume the current token if its type matches, else throw
`Unexpected token: <text>`. -/
def eat (t : TokenType) (ts : List Token) : Except Fault (List Token) :=
  if (curTok ts).type = t then .ok ts.tail
  else .error (.unexpectedToken (curTok ts).value)

mutual

/-- `Parser::factor`: NUMBER (converted with `std::stoi`), IDENTIFIER, or a
parenthesized expression; otherwise `Invalid factor`.  The `fuel` argument
models the host call stack consumed by the recursive descent. -/
def factor : Nat → List Token → Except Fault (AST × List Token)
  | 0, _ => .error .outOfFuel
  | f + 1, ts =>
    let token := curTok ts
    if token.type = .NUMBER then do
      let ts1 ← eat .NUMBER ts
      let v ← stoi token.value
      .ok (.number v, ts1)
    else if token.type = .IDENTIFIER then do
      let ts1 ← eat .IDENTIFIER ts
      .ok (.var token.value, ts1)
    else if token.type = .LPAREN then do
      let ts1 ← eat .LPAREN ts
      let r ← expr f ts1
      let ts2 ← eat .RPAREN r.2
      .ok (r.1, ts2)
    else .error .invalidFactor

/-- The `while` loop of `Parser::term`: fold further `*`/`/` factors onto `node`
from the left. -/
def termLoop : Nat → AST → List Token → Except Fault (AST × List Token)
  | 0, _, _ => .error .outOfFuel
  | f + 1, node, ts =>
    let token := curTok ts
    if token.type = .MULTIPLY ∨ token.type = .DIVIDE then do
      let ts1 ← if token.type = .MULTIPLY then eat .MULTIPLY ts else eat .DIVIDE ts
      let r ← factor f ts1
      termLoop f (.binOp node token.type r.1) r.2
    else .ok (node, ts)

/-- `Parser::term`. -/
def term : Nat → List Token → Except Fault (AST × List Token)
  | 0, _ => .error .outOfFuel
  | f + 1, ts => do
    let r ← factor f ts
    termLoop f r.1 r.2

/-- The `while` loop of `Parser::expr`: fold further `+`/`-` terms onto `node`
from the left. -/
def exprLoop : Nat → AST → List Token → Except Fault (AST × List Token)
  | 0, _, _ => .error .outOfFuel
  | f + 1, node, ts =>
    let token := curTok ts
    if token.type = .PLUS ∨ token.type = .MINUS then do
      let ts1 ← if token.type = .PLUS then eat .PLUS ts else eat .MINUS ts
      let r ← term f ts1
      exprLoop f (.binOp node token.type r.1) r.2
    else .ok (node, ts)

/-- `Parser::expr`. -/
def expr : Nat → List Token → Except Fault (AST × List Token)
  | 0, _ => .error .outOfFuel
  | f + 1, ts => do
    let r ← term f ts
    exprLoop f r.1 r.2

/-- `Parser::statement`: an if-statement, an identifier (assignment when
followed by `=`, otherwise a bare variable reference), or an expression. -/
def statement : Nat → List Token → Except Fault (AST × List Token)
  | 0, _ => .error .outOfFuel
  | f + 1, ts =>
    if (curTok ts).type = .IF then ifStatement f ts
    else if (curTok ts).type = .IDENTIFIER then
      let name := (curTok ts).value
      (do
        let ts1 ← eat .IDENTIFIER ts
        if (curTok ts1).type = .ASSIGN then do
          let ts2 ← eat .ASSIGN ts1
          let r ← expr f ts2
          .ok (.assign name r.1, r.2)
        else .ok (.var name, ts1))
    else expr f ts

/-- `Parser::ifStatement`: `if Expr then Statement [else Statement] endif`. -/
def ifStatement : Nat → List Token → Except Fault (AST × List Token)
  | 0, _ => .error .outOfFuel
  | f + 1, ts => do
    let ts1 ← eat .IF ts
    let c ← expr f ts1
    let ts2 ← eat .THEN c.2
    let t ← statement f ts2
    if (curTok t.2).type = .ELSE then do
      let ts3 ← eat .ELSE t.2
      let e ← statement f ts3
      let ts4 ← eat .ENDIF e.2
      .ok (.ifNode c.1 t.1 (some e.1), ts4)
    else do
      let ts3 ← eat .ENDIF t.2
      .ok (.ifNode c.1 t.1 none, ts3)

end

/-- `Parser::parse`: exactly `return statement();` — no check that the token
stream was exhausted. -/
def parse (fuel : Nat) (ts : List Token) : Except Fault (AST × List Token) :=
  statement fuel ts

/-- A call-stack budget that is ample for a source string of length `n` (each
nesting level of the descent consumes several input characters). -/
def fuelFor (n : Nat) : Nat := 4 * n + 8

/-- Construct a `Parser` on a source string and run `parse()`: tokenize, then
run `statement` on the stream.  Returns the AST and the unconsumed tokens.
The C++ parser pulls tokens from the lexer on demand; modelling it over the
pre-collected stream is equivalent whenever the whole input tokenizes, and can
differ only on inputs whose unlexable garbage lies beyond every token the
parser would request — no statement proved here is about such an input. -/
def runParse (s : String) : Except Fault (AST × List Token) := do
  let ts ← runTokenize s
  parse (fuelFor s.length) ts

/-- One full execution as `main` performs it: `Parser parser(input); auto ast =
parser.parse(); parser.evaluate(ast);`, against the current contents of the
process-wide static variable map, which the execution may mutate. -/
def runProgram (s : String) (env : VarMap) : Except Fault Int × VarMap :=
  match runParse s with
  | .error e => (.error e, env)
  | .ok r => evaluate r.1 env

/-- Several executions in one process: the static map `VariableNode::variables`
persists from each execution to the next. -/
def runProcess : List String → VarMap → List (Except Fault Int) × VarMap
  | [], env => ([], env)
  | s :: rest, env =>
    match runProgram s env with
    | (.ok v, env1) =>
      let r := runProcess rest env1
      (.ok v :: r.1, r.2)
    | (.error e, env1) =>
      let r := runProcess rest env1
      (.error e :: r.1, r.2)

/-- Whether `std::stoi` succeeds on a token text (spec-side helper for stating
parser lemmas over symbolic tokens). -/
def stoiOk (s : String) : Bool :=
  match stoi s with
  | .ok _ => true
  | .error _ => false

/-- The value `std::stoi` yields on a token text (0 when it would throw;
spec-side helper used only under a `stoiOk` hypothesis). -/
def stoiVal (s : String) : Int :=
  match stoi s with
  | .ok v => v
  | .error _ => 0

/-- The maximal identifier run starting at the scan position (spec-side
characterization of what `Lexer::identifier`'s loop consumes). -/
def identRun (st : LexState) : List Char :=
  (st.input.drop st.pos).takeWhile isIdentChar

/-- The reserved-word classification of an identifier text, as the spec states
it (spec-side; compared against the classification `Lexer::identifier`
performs). -/
def keywordType (s : String) : TokenType :=
  if s = "if" then .IF
  else if s = "then" then .THEN
  else if s = "else" then .ELSE
  else if s = "endif" then .ENDIF
  else .IDENTIFIER

/-- The punctuation table the lexer actually implements: the seven characters
of the `switch` in `Lexer::nextToken` with their token type and text (the
source stores an empty text for MULTIPLY). -/
def punctSpec (c : Char) : Option (TokenType × String) :=
  if c = '+' then some (.PLUS, "+")
  else if c = '-' then some (.MINUS, "-")
  else if c = '*' then some (.MULTIPLY, "")
  else if c = '/' then some (.DIVIDE, "/")
  else if c = '=' then some (.ASSIGN, "=")
  else if c = '(' then some (.LPAREN, "(")
  else if c = ')' then some (.RPAREN, ")")
  else none

/-- Build a token at a fixed (irrelevant to the parser) source position —
spec-side helper for stating parser theorems over token streams. -/
def mkTok (t : TokenType) (v : String) : Token := ⟨t, v, 1, 1⟩

/-- Interleave a list of (operator token, operand token) pairs into a token
stream — spec-side helper for stating the left-associativity of the `expr`
loop. -/
def pairToks : List (Token × Token) → List Token
  | [] => []
  | p :: rest => p.1 :: p.2 :: pairToks rest

/-- The left-leaning AST that folding binary operators from the left produces —
spec-side statement of left-associative grouping. -/
def leftFold (start : AST) (xs : List (Token × Token)) : AST :=
  xs.foldl (fun acc p => .binOp acc p.1.type (.number (stoiVal p.2.value))) start

/-!  Basic lemmas about the lexer state. -/

theorem currentChar_eq_null (st : LexState) (h : st.input.length ≤ st.pos) :
    currentChar st = nullChar := by
  simp [currentChar, List.getD, List.getElem?_eq_none h]

theorem pos_lt_of_ne_null (st : LexState) (h : currentChar st ≠ nullChar) :
    st.pos < st.input.length := by
  by_contra h2
  exact h (currentChar_eq_null st (by omega))

theorem skipWhitespaceAux_id (f : Nat) (st : LexState)
    (h : isspaceC (currentChar st) = false) : skipWhitespaceAux f st = st := by
  cases f <;> simp [skipWhitespaceAux, h]

theorem skipWhitespace_id (st : LexState) (h : isspaceC (currentChar st) = false) :
    skipWhitespace st = st :=
  skipWhitespaceAux_id _ _ h

theorem advance_pos (st : LexState) : (advance st).pos = st.pos + 1 := by
  unfold advance
  split <;> rfl

theorem advance_input (st : LexState) : (advance st).input = st.input := by
  unfold advance
  split <;> rfl

theorem isspaceC_false_of_isalphaC {c : Char} (h : isalphaC c = true) :
    isspaceC c = false := by
  simp [isalphaC] at h
  simp [isspaceC]
  omega

theorem isdigitC_false_of_isalphaC {c : Char} (h : isalphaC c = true) :
    isdigitC c = false := by
  simp [isalphaC] at h
  simp [isdigitC]
  omega

theorem isspaceC_false_of_isdigitC {c : Char} (h : isdigitC c = true) :
    isspaceC c = false := by
  simp [isdigitC] at h
  simp [isspaceC]
  omega

theorem ne_null_of_isalphaC {c : Char} (h : isalphaC c = true) : c ≠ nullChar := by
  intro h2
  rw [h2] at h
  revert h
  decide

theorem ne_null_of_isdigitC {c : Char} (h : isdigitC c = true) : c ≠ nullChar := by
  intro h2
  rw [h2] at h
  revert h
  decide

/-! Claim theorems. -/

/-- Claim C3: Division is truncating integer division and faults exactly on a
zero right operand: `x = 7 / 2` yields `x = 3` (and `-7 / 2` evaluates to `-3`,
truncation toward zero); for every BinaryOp with operator DIVIDE whose right
operand evaluates to 0, evaluation fails with the division-by-zero fault, and
with a nonzero right operand it returns the truncated quotient. -/
theorem claim_C3 :
    runProgram "x = 7 / 2" [] = (.ok 3, [("x", 3)]) ∧
    evaluate (.binOp (.number (-7)) .DIVIDE (.number 2)) [] = (.ok (-3), []) ∧
    (∀ (l r : AST) (env env1 env2 : VarMap) (lv : Int),
      evaluate l env = (.ok lv, env1) → evaluate r env1 = (.ok 0, env2) →
      evaluate (.binOp l .DIVIDE r) env = (.error .divisionByZero, env2)) ∧
    (∀ (l r : AST) (env env1 env2 : VarMap) (lv rv : Int),
      evaluate l env = (.ok lv, env1) → evaluate r env1 = (.ok rv, env2) → rv ≠ 0 →
      evaluate (.binOp l .DIVIDE r) env = (.ok (Int.tdiv lv rv), env2)) := by
  refine ⟨rfl, rfl, ?_, ?_⟩
  · intro l r env env1 env2 lv h1 h2
    simp [evaluate, h1, h2]
  · intro l r env env1 env2 lv rv h1 h2 h3
    simp [evaluate, h1, h2, h3]

/-- Witness for C3: the general conclusions applied to concrete operands
`5 / 0` (fault) and `7 / 2` (truncated quotient 3). -/
theorem claim_C3_witness :
    evaluate (.binOp (.number 5) .DIVIDE (.number 0)) [] = (.error .divisionByZero, []) ∧
    evaluate (.binOp (.number 7) .DIVIDE (.number 2)) [] = (.ok (Int.tdiv 7 2), []) :=
  ⟨claim_C3.2.2.1 (.number 5) (.number 0) [] [] [] 5 rfl rfl,
   claim_C3.2.2.2 (.number 7) (.number 2) [] [] [] 7 2 rfl rfl (by decide)⟩

/-- Claim C4 counterexample: the variable table is process-wide static state,
so it is NOT true that no binding from one execution is visible to a later
execution, and running the same input twice in one process can give different
outcomes.  In a process that runs `x = 0`, then `x = x + 1`, then `x = x + 1`,
the two executions of the identical source `x = x + 1` produce 1 and then 2,
while the same source run against a fresh process faults with an undefined
variable. -/
theorem claim_C4_cex :
    runProcess ["x = 0", "x = x + 1", "x = x + 1"] [] = ([.ok 0, .ok 1, .ok 2], [("x", 2)]) ∧
    (Except.ok (1 : Int) ≠ (Except.ok (2 : Int) : Except Fault Int)) ∧
    (runProgram "x = x + 1" []).1 = .error (.undefinedVariable "x") :=
  ⟨rfl, by simp, rfl⟩

/-- Claim C4 (amended): one parse-plus-evaluate execution is a deterministic
function of the source string and of the current contents of the process-wide
static variable map, and the map an execution leaves behind is exactly the map
the next execution in the same process starts from (bindings persist across
executions). -/
theorem claim_C4 :
    ∀ (s : String) (rest : List String) (env env1 : VarMap) (v : Int),
      runProgram s env = (.ok v, env1) →
      runProcess (s :: rest) env =
        (.ok v :: (runProcess rest env1).1, (runProcess rest env1).2) := by
  intro s rest env env1 v h
  simp [runProcess, h]

/-- Witness for C4: after the execution `x = 1` from an empty map, the next
execution in the process starts from the map binding `x` to 1. -/
theorem claim_C4_witness :
    runProcess ["x = 1", "x"] [] =
      (.ok 1 :: (runProcess ["x"] [("x", 1)]).1, (runProcess ["x"] [("x", 1)]).2) :=
  claim_C4 "x = 1" ["x"] [] [("x", 1)] 1 rfl

/-- Claim C5: evaluating a Variable node looks its name up in the environment;
it fails with the undefined-variable fault naming that variable if and only if
the name is absent, and when the name is bound it returns the bound integer
with the environment unmodified. -/
theorem claim_C5 :
    ∀ (name : String) (env : VarMap),
      (evaluate (.var name) env = (.error (.undefinedVariable name), env) ↔
        lookupVar env name = none) ∧
      (∀ v : Int, lookupVar env name = some v →
        evaluate (.var name) env = (.ok v, env)) := by
  intro name env
  cases h : lookupVar env name <;> simp [evaluate, h]

/-- Witness for C5: `y` is unbound in `[("x", 1)]` and evaluating it faults;
`x` is bound to 1 and evaluating it returns 1 with the environment unchanged. -/
theorem claim_C5_witness :
    evaluate (.var "y") [("x", 1)] = (.error (.undefinedVariable "y"), [("x", 1)]) ∧
    evaluate (.var "x") [("x", 1)] = (.ok 1, [("x", 1)]) :=
  ⟨(claim_C5 "y" [("x", 1)]).1.mpr rfl, (claim_C5 "x" [("x", 1)]).2 1 rfl⟩

/-- Claim C6: `nextToken` is idempotent at end-of-input: whenever the scan
position is at or past the end of the input, it returns an END token carrying
the current line/column, leaves the lexer state unchanged (so every subsequent
call does the same), and does not fault. -/
theorem claim_C6 :
    ∀ st : LexState, st.input.length ≤ st.pos →
      nextToken st = .ok (⟨.END, "", st.line, st.column⟩, st) := by
  intro st h
  have hnull : currentChar st = nullChar := currentChar_eq_null st h
  have hskip : skipWhitespace st = st := by
    apply skipWhitespace_id
    rw [hnull]
    decide
  simp [nextToken, hskip, h]

/-- Witness for C6: a lexer state past the end of its input (position 5 in a
one-character input) yields the END token and is left unchanged. -/
theorem claim_C6_witness :
    nextToken ⟨['a'], 5, 3, 7⟩ = .ok (⟨.END, "", 3, 7⟩, ⟨['a'], 5, 3, 7⟩) :=
  claim_C6 ⟨['a'], 5, 3, 7⟩ (by decide)

/-- Claim C10: `parse()` is exactly one `statement()` call: whenever the
statement rule succeeds, `parse` succeeds with the same tree and the same
unconsumed tokens — there is no check that the token stream was exhausted —
and concretely `x = 1 y = 2` parses to the assignment `x = 1` with the
trailing tokens `y = 2` left unconsumed and ignored. -/
theorem claim_C10 :
    (∀ (fuel : Nat) (ts : List Token) (node : AST) (rest : List Token),
      statement fuel ts = .ok (node, rest) → parse fuel ts = .ok (node, rest)) ∧
    (∃ leftover : List Token,
      runParse "x = 1 y = 2" = .ok (.assign "x" (.number 1), leftover) ∧
      leftover ≠ []) := by
  refine ⟨fun fuel ts node rest h => h, ?_⟩
  refine ⟨[⟨.IDENTIFIER, "y", 1, 8⟩, ⟨.ASSIGN, "=", 1, 10⟩, ⟨.NUMBER, "2", 1, 12⟩], rfl, ?_⟩
  simp

/-- Witness for C10: the statement-level success on the token stream of
`x = 1 y = 2` transfers to `parse` verbatim, leftover tokens included. -/
theorem claim_C10_witness :
    parse 12 [mkTok .IDENTIFIER "x", mkTok .ASSIGN "=", mkTok .NUMBER "1",
              mkTok .IDENTIFIER "y", mkTok .ASSIGN "=", mkTok .NUMBER "2"] =
      .ok (.assign "x" (.number 1),
           [mkTok .IDENTIFIER "y", mkTok .ASSIGN "=", mkTok .NUMBER "2"]) :=
  claim_C10.1 12 _ _ _ rfl

/-- When the scan position holds a non-space, non-digit, non-letter character,
`nextToken` reduces to the punctuation switch applied after one `advance`. -/
theorem nextToken_switch (st : LexState) (c : Char)
    (h1 : currentChar st = c) (hsp : isspaceC c = false) (hd : isdigitC c = false)
    (ha : isalphaC c = false) (hnn : c ≠ nullChar) :
    nextToken st =
      (if c = '+' then .ok (⟨.PLUS, "+", (advance st).line, (advance st).column⟩, advance st)
       else if c = '-' then .ok (⟨.MINUS, "-", (advance st).line, (advance st).column⟩, advance st)
       else if c = '*' then .ok (⟨.MULTIPLY, "", (advance st).line, (advance st).column⟩, advance st)
       else if c = '/' then .ok (⟨.DIVIDE, "/", (advance st).line, (advance st).column⟩, advance st)
       else if c = '=' then .ok (⟨.ASSIGN, "=", (advance st).line, (advance st).column⟩, advance st)
       else if c = '(' then .ok (⟨.LPAREN, "(", (advance st).line, (advance st).column⟩, advance st)
       else if c = ')' then .ok (⟨.RPAREN, ")", (advance st).line, (advance st).column⟩, advance st)
       else .error (.invalidCharacter c)) := by
  have hlt : st.pos < st.input.length := pos_lt_of_ne_null st (by rw [h1]; exact hnn)
  have hskip : skipWhitespace st = st := skipWhitespace_id st (by rw [h1]; exact hsp)
  have hnle : ¬ st.input.length ≤ st.pos := by omega
  simp [nextToken, hskip, hnle, h1, hd, ha]

/-- Claim C7 (amended): for every source position whose current character is
one of the SEVEN characters `( ) + - * / =`, `nextToken` returns a token of the
corresponding dedicated kind (with the text the source stores for it) and
consumes exactly one character; `{`, `}` and `;` are NOT among the recognized
characters (see the counterexample: they fault). -/
theorem claim_C7 :
    ∀ (st : LexState) (c : Char) (t : TokenType) (v : String),
      currentChar st = c → punctSpec c = some (t, v) →
      nextToken st = .ok (⟨t, v, (advance st).line, (advance st).column⟩, advance st) ∧
      (advance st).pos = st.pos + 1 := by
  intro st c t v h1 h2
  refine ⟨?_, advance_pos st⟩
  unfold punctSpec at h2
  split_ifs at h2 with hc hc hc hc hc hc hc
  · simp at h2
    obtain ⟨rfl, rfl⟩ := h2
    subst hc
    rw [nextToken_switch st '+' h1 (by decide) (by decide) (by decide) (by decide)]
    simp
  · simp at h2
    obtain ⟨rfl, rfl⟩ := h2
    subst hc
    rw [nextToken_switch st '-' h1 (by decide) (by decide) (by decide) (by decide)]
    simp
  · simp at h2
    obtain ⟨rfl, rfl⟩ := h2
    subst hc
    rw [nextToken_switch st '*' h1 (by decide) (by decide) (by decide) (by decide)]
    simp
  · simp at h2
    obtain ⟨rfl, rfl⟩ := h2
    subst hc
    rw [nextToken_switch st '/' h1 (by decide) (by decide) (by decide) (by decide)]
    simp
  · simp at h2
    obtain ⟨rfl, rfl⟩ := h2
    subst hc
    rw [nextToken_switch st '=' h1 (by decide) (by decide) (by decide) (by decide)]
    simp
  · simp at h2
    obtain ⟨rfl, rfl⟩ := h2
    subst hc
    rw [nextToken_switch st '(' h1 (by decide) (by decide) (by decide) (by decide)]
    simp
  · simp at h2
    obtain ⟨rfl, rfl⟩ := h2
    subst hc
    rw [nextToken_switch st ')' h1 (by decide) (by decide) (by decide) (by decide)]
    simp

/-- Claim C7 counterexample: the claim lists ten characters, but `{`, `}` and
`;` have no token kind in the source — on each of them `nextToken` raises the
invalid-character fault instead of producing a token. -/
theorem claim_C7_cex :
    nextToken (LexState.init "\x7b") = .error (.invalidCharacter (Char.ofNat 123)) ∧
    nextToken (LexState.init "\x7d") = .error (.invalidCharacter (Char.ofNat 125)) ∧
    nextToken (LexState.init ";") = .error (.invalidCharacter ';') :=
  ⟨rfl, rfl, rfl⟩

/-- Witness for C7: at a `*` the lexer emits the MULTIPLY token (with the empty
text the source stores for it) and moves one character forward. -/
theorem claim_C7_witness :
    nextToken (LexState.init "*a") =
      .ok (⟨.MULTIPLY, "", (advance (LexState.init "*a")).line,
            (advance (LexState.init "*a")).column⟩, advance (LexState.init "*a")) ∧
    (advance (LexState.init "*a")).pos = (LexState.init "*a").pos + 1 :=
  claim_C7 (LexState.init "*a") '*' .MULTIPLY "" rfl rfl

/-- A taken-while segment is never longer than the list it is taken from. -/
theorem takeWhile_length_le (p : Char → Bool) :
    ∀ l : List Char, (l.takeWhile p).length ≤ l.length := by
  intro l
  induction l with
  | nil => simp
  | cons a t ih =>
    simp only [List.takeWhile_cons]
    split
    · simp
      omega
    · simp

/-- Inside the input, the dropped suffix starts with the current character. -/
theorem drop_pos_cons (st : LexState) (h : st.pos < st.input.length) :
    st.input.drop st.pos = currentChar st :: st.input.drop (st.pos + 1) := by
  rw [List.drop_eq_getElem_cons h]
  congr 1
  simp [currentChar, List.getD, List.getElem?_eq_getElem h]

/-- On any character other than a newline, `advance` steps position and column. -/
theorem advance_of_not_newline (st : LexState) (h : currentChar st ≠ '\n') :
    advance st = ⟨st.input, st.pos + 1, st.line, st.column + 1⟩ := by
  unfold advance
  rw [if_neg h]

theorem isIdentChar_ne_newline {c : Char} (h : isIdentChar c = true) : c ≠ '\n' := by
  intro h2
  rw [h2] at h
  revert h
  decide

theorem ne_null_of_isIdentChar {c : Char} (h : isIdentChar c = true) : c ≠ nullChar := by
  intro h2
  rw [h2] at h
  revert h
  decide

theorem identRun_eq_nil (st : LexState) (h : isIdentChar (currentChar st) = false) :
    identRun st = [] := by
  unfold identRun
  rcases Nat.lt_or_ge st.pos st.input.length with hlt | hge
  · rw [drop_pos_cons st hlt]
    simp [List.takeWhile_cons, h]
  · rw [List.drop_eq_nil_of_le hge]
    rfl

theorem identRun_cons (st : LexState) (h : isIdentChar (currentChar st) = true) :
    identRun st = currentChar st :: identRun (advance st) := by
  have hlt : st.pos < st.input.length :=
    pos_lt_of_ne_null st (ne_null_of_isIdentChar h)
  unfold identRun
  rw [drop_pos_cons st hlt]
  simp [List.takeWhile_cons, h, advance_input, advance_pos]

/-- The loop of `Lexer::identifier` consumes exactly the maximal identifier run:
it appends that run to the accumulator and moves position and column past it
(identifier characters are never newlines, so the line number is unchanged). -/
theorem identLoopAux_spec :
    ∀ (f : Nat) (st : LexState) (acc : List Char), (identRun st).length ≤ f →
      identLoopAux f st acc =
        (⟨st.input, st.pos + (identRun st).length, st.line,
          st.column + (identRun st).length⟩, acc ++ identRun st) := by
  intro f
  induction f with
  | zero =>
    intro st acc h
    have hrun : identRun st = [] := List.eq_nil_of_length_eq_zero (by omega)
    simp [identLoopAux, hrun]
  | succ f ih =>
    intro st acc h
    by_cases hc : isIdentChar (currentChar st) = true
    · have hcons := identRun_cons st hc
      have hadv := advance_of_not_newline st (isIdentChar_ne_newline hc)
      have hlen : (identRun (advance st)).length ≤ f := by
        rw [hcons] at h
        simp at h
        omega
      rw [identLoopAux, if_pos hc, ih (advance st) (acc ++ [currentChar st]) hlen, hcons]
      rw [hadv]
      simp [Prod.ext_iff, LexState.mk.injEq]
      omega
    · have hc2 : isIdentChar (currentChar st) = false := by
        simpa using hc
      have hrun : identRun st = [] := identRun_eq_nil st hc2
      simp [identLoopAux, hc2, hrun]

/-- Claim C8 (amended): for every source position whose current character is a
LETTER (not an underscore — see the counterexample: a leading `_` faults), the
lexer produces a single token covering the maximal following run of letters,
digits, and underscores; the token kind is IF, THEN, ELSE, or ENDIF when the
run exactly (case-sensitively) equals the reserved word, and IDENTIFIER
otherwise, and the scan position moves exactly past the run. -/
theorem claim_C8 :
    ∀ st : LexState, isalphaC (currentChar st) = true →
      nextToken st = .ok (identifierTok st) ∧
      (identifierTok st).1.value = String.mk (identRun st) ∧
      (identifierTok st).1.type = keywordType (String.mk (identRun st)) ∧
      (identifierTok st).2 =
        ⟨st.input, st.pos + (identRun st).length, st.line,
         st.column + (identRun st).length⟩ := by
  intro st h
  have hne : currentChar st ≠ nullChar := ne_null_of_isalphaC h
  have hlt := pos_lt_of_ne_null st hne
  have hnle : ¬ st.input.length ≤ st.pos := by omega
  have hskip : skipWhitespace st = st := skipWhitespace_id st (isspaceC_false_of_isalphaC h)
  have hdig : isdigitC (currentChar st) = false := isdigitC_false_of_isalphaC h
  have hlen : (identRun st).length ≤ st.input.length - st.pos := by
    have h1 : (identRun st).length ≤ (st.input.drop st.pos).length :=
      takeWhile_length_le _ _
    simpa using h1
  have hloop := identLoopAux_spec (st.input.length - st.pos) st [] hlen
  refine ⟨?_, ?_, ?_, ?_⟩
  · simp [nextToken, hskip, hnle, hdig, h]
  · simp only [identifierTok, hloop]
    split_ifs <;> simp
  · simp only [identifierTok, hloop, keywordType]
    split_ifs <;> simp_all
  · simp only [identifierTok, hloop]
    split_ifs <;> rfl

/-- Claim C8 counterexample: the claim admits an underscore as the first
character of an identifier, but `Lexer::nextToken` only enters `identifier()`
on `isalpha`; on a source starting with `_x` it raises the invalid-character
fault for `_` instead of producing an IDENTIFIER token. -/
theorem claim_C8_cex :
    nextToken (LexState.init "_x") = .error (.invalidCharacter '_') := rfl

/-- Witness for C8: on the source `if2 x` (letter start), the lexer emits one
token covering the run `if2`, classified IDENTIFIER (not the keyword `if`),
and stops right after it. -/
theorem claim_C8_witness :
    nextToken (LexState.init "if2 x") = .ok (identifierTok (LexState.init "if2 x")) ∧
    (identifierTok (LexState.init "if2 x")).1.value =
      String.mk (identRun (LexState.init "if2 x")) ∧
    (identifierTok (LexState.init "if2 x")).1.type =
      keywordType (String.mk (identRun (LexState.init "if2 x"))) ∧
    (identifierTok (LexState.init "if2 x")).2 =
      ⟨(LexState.init "if2 x").input,
       (LexState.init "if2 x").pos + (identRun (LexState.init "if2 x")).length,
       (LexState.init "if2 x").line,
       (LexState.init "if2 x").column + (identRun (LexState.init "if2 x")).length⟩ :=
  claim_C8 (LexState.init "if2 x") (by decide)

/-- Claim C9 (amended): an oversized numeric literal is NOT a lexing fault: the
lexer accepts every digit run as a NUMBER token (first conjunct: any position
holding a digit lexes to a NUMBER token without fault), and the overflow
surfaces later, in `Parser::factor`, where `std::stoi` on the token text throws
`std::out_of_range` (second conjunct); concretely, parsing `9999999999` fails
with that conversion fault at parse time (third conjunct). -/
theorem claim_C9 :
    (∀ st : LexState, isdigitC (currentChar st) = true →
      nextToken st = .ok (numberTok st) ∧ (numberTok st).1.type = .NUMBER) ∧
    (∀ (f : Nat) (t : Token) (rest : List Token),
      t.type = .NUMBER → stoi t.value = .error .outOfRange →
      factor (f + 1) (t :: rest) = .error .outOfRange) ∧
    runParse "9999999999" = .error .outOfRange := by
  refine ⟨?_, ?_, rfl⟩
  · intro st h
    have hne : currentChar st ≠ nullChar := ne_null_of_isdigitC h
    have hlt := pos_lt_of_ne_null st hne
    have hnle : ¬ st.input.length ≤ st.pos := by omega
    have hskip : skipWhitespace st = st :=
      skipWhitespace_id st (isspaceC_false_of_isdigitC h)
    exact ⟨by simp [nextToken, hskip, hnle, h], rfl⟩
  · intro f t rest ht hs
    simp [factor, curTok, eat, ht, hs, Bind.bind, Except.bind]

/-- Claim C9 counterexample: the ten-digit literal `9999999999` (beyond
`INT_MAX`) is accepted by the lexer as a NUMBER token — tokenization succeeds
with no lexing fault, refuting the claim that the lexer reports the overflow. -/
theorem claim_C9_cex :
    runTokenize "9999999999" = .ok [⟨.NUMBER, "9999999999", 1, 11⟩] := rfl

/-- Witness for C9: the lexer conjunct applied at a digit position, and the
factor conjunct applied to the oversized NUMBER token. -/
theorem claim_C9_witness :
    (nextToken (LexState.init "123") = .ok (numberTok (LexState.init "123")) ∧
      (numberTok (LexState.init "123")).1.type = .NUMBER) ∧
    factor 1 [mkTok .NUMBER "9999999999"] = .error .outOfRange :=
  ⟨claim_C9.1 (LexState.init "123") (by decide),
   claim_C9.2.1 0 (mkTok .NUMBER "9999999999") [] rfl rfl⟩

theorem stoi_eq_of_stoiOk (s : String) (h : stoiOk s = true) :
    stoi s = .ok (stoiVal s) := by
  unfold stoiOk stoiVal at *
  cases h2 : stoi s <;> simp [h2] at h ⊢

theorem eat_cons_ok (t : TokenType) (tok : Token) (rest : List Token)
    (h : tok.type = t) : eat t (tok :: rest) = .ok rest := by
  simp [eat, curTok, h]

theorem factor_number (f : Nat) (t : Token) (rest : List Token)
    (ht : t.type = .NUMBER) (hok : stoiOk t.value = true) :
    factor (f + 1) (t :: rest) = .ok (.number (stoiVal t.value), rest) := by
  simp [factor, curTok, eat, ht, stoi_eq_of_stoiOk t.value hok, Bind.bind, Except.bind]

theorem termLoop_stop (f : Nat) (node : AST) (ts : List Token)
    (h1 : (curTok ts).type ≠ .MULTIPLY) (h2 : (curTok ts).type ≠ .DIVIDE) :
    termLoop (f + 1) node ts = .ok (node, ts) := by
  simp [termLoop, h1, h2]

theorem exprLoop_stop (f : Nat) (node : AST) (ts : List Token)
    (h1 : (curTok ts).type ≠ .PLUS) (h2 : (curTok ts).type ≠ .MINUS) :
    exprLoop (f + 1) node ts = .ok (node, ts) := by
  simp [exprLoop, h1, h2]

theorem term_number (f : Nat) (t : Token) (rest : List Token)
    (ht : t.type = .NUMBER) (hok : stoiOk t.value = true)
    (h1 : (curTok rest).type ≠ .MULTIPLY) (h2 : (curTok rest).type ≠ .DIVIDE) :
    term (f + 2) (t :: rest) = .ok (.number (stoiVal t.value), rest) := by
  simp [term, factor_number f t rest ht hok, termLoop_stop f _ rest h1 h2,
    Bind.bind, Except.bind]

theorem pairToks_head_not_muldiv (xs : List (Token × Token))
    (h : ∀ p ∈ xs, p.1.type = .PLUS ∨ p.1.type = .MINUS) :
    (curTok (pairToks xs)).type ≠ .MULTIPLY ∧ (curTok (pairToks xs)).type ≠ .DIVIDE := by
  cases xs with
  | nil => simp [pairToks, curTok, endTok]
  | cons p rest =>
    rcases h p (by simp) with h1 | h1 <;> simp [pairToks, curTok, h1]

theorem exprLoop_iter (f : Nat) (node : AST) (o t : Token) (rest : List Token)
    (ho : o.type = .PLUS ∨ o.type = .MINUS) (ht : t.type = .NUMBER)
    (hok : stoiOk t.value = true)
    (h1 : (curTok rest).type ≠ .MULTIPLY) (h2 : (curTok rest).type ≠ .DIVIDE) :
    exprLoop (f + 3) node (o :: t :: rest) =
      exprLoop (f + 2) (.binOp node o.type (.number (stoiVal t.value))) rest := by
  have hterm := term_number f t rest ht hok h1 h2
  rcases ho with h3 | h3
  · conv_lhs => rw [exprLoop]
    simp only [curTok, List.headD, h3, eat_cons_ok .PLUS o (t :: rest) h3, hterm,
      Bind.bind, Except.bind]
    simp [h3]
  · conv_lhs => rw [exprLoop]
    simp only [curTok, List.headD, h3, eat_cons_ok .MINUS o (t :: rest) h3, hterm,
      Bind.bind, Except.bind]
    simp [h3]

theorem exprLoop_foldl :
    ∀ (xs : List (Token × Token)) (f : Nat) (node : AST),
      3 + xs.length ≤ f →
      (∀ p ∈ xs, (p.1.type = .PLUS ∨ p.1.type = .MINUS) ∧
        p.2.type = .NUMBER ∧ stoiOk p.2.value = true) →
      exprLoop f node (pairToks xs) = .ok (leftFold node xs, []) := by
  intro xs
  induction xs with
  | nil =>
    intro f node hf _
    obtain ⟨g, rfl⟩ : ∃ g, f = g + 1 := ⟨f - 1, by omega⟩
    simp [exprLoop, pairToks, curTok, endTok, leftFold]
  | cons p xs ih =>
    intro f node hf hall
    obtain ⟨g, rfl⟩ : ∃ g, f = g + 3 := ⟨f - 3, by omega⟩
    obtain ⟨hop, hnum, hok⟩ := hall p (by simp)
    have htail : ∀ q ∈ xs, (q.1.type = .PLUS ∨ q.1.type = .MINUS) ∧
        q.2.type = .NUMBER ∧ stoiOk q.2.value = true :=
      fun q hq => hall q (by simp [hq])
    have hmd := pairToks_head_not_muldiv xs (fun q hq => (htail q hq).1)
    have hih := ih (g + 2) (.binOp node p.1.type (.number (stoiVal p.2.value)))
      (by simp at hf; omega) htail
    calc exprLoop (g + 3) node (pairToks (p :: xs))
        = exprLoop (g + 2) (.binOp node p.1.type (.number (stoiVal p.2.value)))
            (pairToks xs) :=
          exprLoop_iter g node p.1 p.2 (pairToks xs) hop hnum hok hmd.1 hmd.2
      _ = .ok (leftFold (.binOp node p.1.type (.number (stoiVal p.2.value))) xs, []) := hih
      _ = .ok (leftFold node (p :: xs), []) := by simp [leftFold]

theorem expr_foldl (f : Nat) (t0 : Token) (xs : List (Token × Token))
    (hf : 4 + xs.length ≤ f) (ht0 : t0.type = .NUMBER) (hok0 : stoiOk t0.value = true)
    (hxs : ∀ p ∈ xs, (p.1.type = .PLUS ∨ p.1.type = .MINUS) ∧
      p.2.type = .NUMBER ∧ stoiOk p.2.value = true) :
    expr f (t0 :: pairToks xs) = .ok (leftFold (.number (stoiVal t0.value)) xs, []) := by
  obtain ⟨g, rfl⟩ : ∃ g, f = g + 3 := ⟨f - 3, by omega⟩
  have hmd := pairToks_head_not_muldiv xs (fun p hp => (hxs p hp).1)
  have hterm : term (g + 2) (t0 :: pairToks xs) =
      .ok (.number (stoiVal t0.value), pairToks xs) :=
    term_number g t0 _ ht0 hok0 hmd.1 hmd.2
  have hloop := exprLoop_foldl xs (g + 2) (.number (stoiVal t0.value))
    (by omega) hxs
  conv_lhs => rw [expr]
  simp only [hterm, hloop, Bind.bind, Except.bind]

theorem termLoop_iter (f : Nat) (node : AST) (o t : Token) (rest : List Token)
    (ho : o.type = .MULTIPLY ∨ o.type = .DIVIDE) (ht : t.type = .NUMBER)
    (hok : stoiOk t.value = true) :
    termLoop (f + 2) node (o :: t :: rest) =
      termLoop (f + 1) (.binOp node o.type (.number (stoiVal t.value))) rest := by
  have hfac := factor_number f t rest ht hok
  rcases ho with h3 | h3
  · conv_lhs => rw [termLoop]
    simp only [curTok, List.headD, h3, eat_cons_ok .MULTIPLY o (t :: rest) h3, hfac,
      Bind.bind, Except.bind]
    simp [h3]
  · conv_lhs => rw [termLoop]
    simp only [curTok, List.headD, h3, eat_cons_ok .DIVIDE o (t :: rest) h3, hfac,
      Bind.bind, Except.bind]
    simp [h3]

theorem term_num_mul_num (f : Nat) (t1 o2 t2 : Token) (rest : List Token)
    (ht1 : t1.type = .NUMBER) (hok1 : stoiOk t1.value = true)
    (ho2 : o2.type = .MULTIPLY ∨ o2.type = .DIVIDE)
    (ht2 : t2.type = .NUMBER) (hok2 : stoiOk t2.value = true)
    (h1 : (curTok rest).type ≠ .MULTIPLY) (h2 : (curTok rest).type ≠ .DIVIDE) :
    term (f + 3) (t1 :: o2 :: t2 :: rest) =
      .ok (.binOp (.number (stoiVal t1.value)) o2.type
            (.number (stoiVal t2.value)), rest) := by
  have hfac := factor_number (f + 1) t1 (o2 :: t2 :: rest) ht1 hok1
  have hiter := termLoop_iter f (.number (stoiVal t1.value)) o2 t2 rest ho2 ht2 hok2
  have hstop := termLoop_stop f
    (.binOp (.number (stoiVal t1.value)) o2.type (.number (stoiVal t2.value))) rest h1 h2
  conv_lhs => rw [term]
  simp only [hfac, Bind.bind, Except.bind, hiter, hstop]

/-- Claim C1: subtraction is left-associative: `x = 10 - 3 - 2` evaluates to the
binding x = 5 (that is, (10-3)-2, not 10-(3-2) = 9); and in general the expr
rule folds any run of `+`/`-` operators into a left-leaning tree. -/
theorem claim_C1 :
    runProgram "x = 10 - 3 - 2" [] = (.ok 5, [("x", 5)]) ∧
    (∀ (f : Nat) (t0 : Token) (xs : List (Token × Token)),
      4 + xs.length ≤ f → t0.type = .NUMBER → stoiOk t0.value = true →
      (∀ p ∈ xs, (p.1.type = .PLUS ∨ p.1.type = .MINUS) ∧
        p.2.type = .NUMBER ∧ stoiOk p.2.value = true) →
      expr f (t0 :: pairToks xs) =
        .ok (leftFold (.number (stoiVal t0.value)) xs, [])) :=
  ⟨rfl, fun f t0 xs hf ht hok hxs => expr_foldl f t0 xs hf ht hok hxs⟩

/-- Witness for C1: the general left fold applied to the token stream of
`10 - 3 - 2` yields the left-leaning tree ((10 - 3) - 2). -/
theorem claim_C1_witness :
    expr 10 (mkTok .NUMBER "10" :: pairToks
        [(mkTok .MINUS "-", mkTok .NUMBER "3"), (mkTok .MINUS "-", mkTok .NUMBER "2")]) =
      .ok (leftFold (.number (stoiVal "10"))
        [(mkTok .MINUS "-", mkTok .NUMBER "3"), (mkTok .MINUS "-", mkTok .NUMBER "2")], []) :=
  claim_C1.2 10 (mkTok .NUMBER "10")
    [(mkTok .MINUS "-", mkTok .NUMBER "3"), (mkTok .MINUS "-", mkTok .NUMBER "2")]
    (by decide) rfl (by decide) (by decide)

/-- Claim C2: `*` and `/` bind tighter than `+` and `-`: `x = 2 + 3 * 4`
evaluates to x = 14; and in general, on a stream NUMBER op1 NUMBER op2 NUMBER
with op1 additive and op2 multiplicative, the parser builds the op2 (Term)
node as the right CHILD of the op1 (Expr) node. -/
theorem claim_C2 :
    runProgram "x = 2 + 3 * 4" [] = (.ok 14, [("x", 14)]) ∧
    (∀ (f : Nat) (t0 o1 t1 o2 t2 : Token),
      8 ≤ f → t0.type = .NUMBER → stoiOk t0.value = true →
      (o1.type = .PLUS ∨ o1.type = .MINUS) →
      t1.type = .NUMBER → stoiOk t1.value = true →
      (o2.type = .MULTIPLY ∨ o2.type = .DIVIDE) →
      t2.type = .NUMBER → stoiOk t2.value = true →
      expr f [t0, o1, t1, o2, t2] =
        .ok (.binOp (.number (stoiVal t0.value)) o1.type
              (.binOp (.number (stoiVal t1.value)) o2.type
                (.number (stoiVal t2.value))), [])) := by
  refine ⟨rfl, ?_⟩
  intro f t0 o1 t1 o2 t2 hf ht0 hok0 ho1 ht1 hok1 ho2 ht2 hok2
  obtain ⟨g, rfl⟩ : ∃ g, f = g + 8 := ⟨f - 8, by omega⟩
  have ho1m : (curTok [o1, t1, o2, t2]).type ≠ .MULTIPLY ∧
      (curTok [o1, t1, o2, t2]).type ≠ .DIVIDE := by
    rcases ho1 with h | h <;> simp [curTok, h]
  have hterm0 := term_number (g + 5) t0 [o1, t1, o2, t2] ht0 hok0 ho1m.1 ho1m.2
  have hterm2 := term_num_mul_num (g + 3) t1 o2 t2 [] ht1 hok1 ho2 ht2 hok2
    (by simp [curTok, endTok]) (by simp [curTok, endTok])
  conv_lhs => rw [expr]
  simp only [hterm0, Bind.bind, Except.bind]
  rcases ho1 with h | h
  · have hstop := exprLoop_stop (g + 5)
      (.binOp (.number (stoiVal t0.value)) .PLUS
        (.binOp (.number (stoiVal t1.value)) o2.type (.number (stoiVal t2.value)))) []
      (by simp [curTok, endTok]) (by simp [curTok, endTok])
    conv_lhs => rw [exprLoop]
    simp only [curTok, List.headD, h, eat_cons_ok .PLUS o1 _ h, hterm2,
      Bind.bind, Except.bind, hstop]
    simp [h]
  · have hstop := exprLoop_stop (g + 5)
      (.binOp (.number (stoiVal t0.value)) .MINUS
        (.binOp (.number (stoiVal t1.value)) o2.type (.number (stoiVal t2.value)))) []
      (by simp [curTok, endTok]) (by simp [curTok, endTok])
    conv_lhs => rw [exprLoop]
    simp only [curTok, List.headD, h, eat_cons_ok .MINUS o1 _ h, hterm2,
      Bind.bind, Except.bind, hstop]
    simp [h]

/-- Witness for C2: the general precedence shape applied to the tokens of
`2 + 3 * 4`. -/
theorem claim_C2_witness :
    expr 8 [mkTok .NUMBER "2", mkTok .PLUS "+", mkTok .NUMBER "3",
            mkTok .MULTIPLY "", mkTok .NUMBER "4"] =
      .ok (.binOp (.number (stoiVal "2")) .PLUS
            (.binOp (.number (stoiVal "3")) .MULTIPLY (.number (stoiVal "4"))), []) :=
  claim_C2.2 8 (mkTok .NUMBER "2") (mkTok .PLUS "+") (mkTok .NUMBER "3")
    (mkTok .MULTIPLY "") (mkTok .NUMBER "4")
    (by decide) rfl (by decide) (Or.inl rfl) rfl (by decide) (Or.inl rfl) rfl (by decide)
